import Mathlib

/-!
# Verification of the boids flocking core (`src/boids.rs`)

Shallow embedding of the per-frame flocking update core of the repository:
the `seek` primitive, the three steering behaviors (`separate`, `align`,
`cohesion`), the force-accumulation pass (`flock`), the integrator with
boundary wrap (`update_boid`), and the capped spawner (`spawn`).

Modelling conventions:
* `f32` values are modelled as real numbers (ideal arithmetic).
* glam's `Vec2::normalize` of a zero vector yields NaN components in the
  compiled program (the `glam_assert` feature is off by default).  A vector
  whose computation has gone through such an undefined normalize — and hence
  whose components are NaN — is modelled as `Option.none`; well-defined
  vectors are `Option.some`.  `Vec2.normalizeOpt` is the model of an
  *unguarded* `.normalize()` call; the total `Vec2.normalize` is used only
  at call sites that the source guards with a strict positivity test on the
  length, where it agrees with the float behavior.
* Bevy ECS component lookups (`Query::get`) are modelled as partial maps
  `ℕ → Option Vec2` from entity handles; `none` covers both a missing
  component (e.g. an entity spawned this frame whose components are not yet
  inserted) and a NaN-contaminated component, both of which are skipped
  identically by the neighbor loops (every comparison against a NaN distance
  is false).
-/

namespace Boids

noncomputable section

/-- `const DEFAULT_MAX_BOID_COUNT: u32 = 600;` -/
def DEFAULT_MAX_BOID_COUNT : ℕ := 600

/-- `const R: f32 = 5.;` (agent radius margin used by the boundary wrap). -/
def R : ℝ := 5

/-- `const MAX_FORCE: f32 = 5.0;` -/
def MAX_FORCE : ℝ := 5

/-- `const MAX_SPEED: f32 = 300.0;` -/
def MAX_SPEED : ℝ := 300

/-- `const DESIRED_SEPARATION: f32 = 50.;` -/
def DESIRED_SEPARATION : ℝ := 50

/-- `const NEIGHBOUR_RADIUS: f32 = 100.;` -/
def NEIGHBOUR_RADIUS : ℝ := 100

/-- `const SEPARATION_MULTIPLIER: f32 = 1.2;` -/
def SEPARATION_MULTIPLIER : ℝ := 1.2

/-- `const ALIGN_MULTIPLIER: f32 = 1.0;` -/
def ALIGN_MULTIPLIER : ℝ := 1

/-- `const COHESION_MULTIPLIER: f32 = 1.0;` -/
def COHESION_MULTIPLIER : ℝ := 1

/-- glam `Vec2` (the payload of the `Position`, `Velocity` and
`Acceleration` components). -/
structure Vec2 where
  x : ℝ
  y : ℝ

/-- glam `Vec3` (used by `Boid::separate` via `Vec3::from((v, 0.))`). -/
structure Vec3 where
  x : ℝ
  y : ℝ
  z : ℝ

/-- The `Boid` component: per-agent steering parameters. -/
structure Boid where
  max_force : ℝ
  max_speed : ℝ

/-- `impl Default for Boid`. -/
def Boid.default : Boid :=
  { max_force := MAX_FORCE, max_speed := MAX_SPEED }

namespace Vec2

theorem ext_iff2 {a b : Vec2} : a = b ↔ a.x = b.x ∧ a.y = b.y := by
  cases a
  cases b
  simp [mk.injEq]

/-- `Vec2::ZERO` / `Vec2::new(0., 0.)`. -/
def zero : Vec2 := ⟨0, 0⟩

/-- Component-wise `AddAssign` / `Add`. -/
def add (a b : Vec2) : Vec2 := ⟨a.x + b.x, a.y + b.y⟩

/-- Component-wise `Sub`. -/
def sub (a b : Vec2) : Vec2 := ⟨a.x - b.x, a.y - b.y⟩

/-- `Mul<f32>`: scale every component. -/
def mul (a : Vec2) (c : ℝ) : Vec2 := ⟨a.x * c, a.y * c⟩

/-- `Div<f32>`: divide every component. -/
def div (a : Vec2) (c : ℝ) : Vec2 := ⟨a.x / c, a.y / c⟩

/-- glam `length_squared`: `self.dot(self)`. -/
def lengthSq (a : Vec2) : ℝ := a.x * a.x + a.y * a.y

/-- glam `length`: `self.dot(self).sqrt()`. -/
noncomputable def length (a : Vec2) : ℝ := Real.sqrt a.lengthSq

/-- glam `distance`: `(self - rhs).length()`. -/
noncomputable def distance (a b : Vec2) : ℝ := (a.sub b).length

/-- glam `normalize` (`self * self.length().recip()`), as used at call
sites where the source has already established a nonzero length. -/
noncomputable def normalize (a : Vec2) : Vec2 := a.div a.length

/-- glam `normalize` at an *unguarded* call site: a zero-length argument
produces NaN components (modelled as `none`). -/
noncomputable def normalizeOpt (a : Vec2) : Option Vec2 :=
  if a.lengthSq = 0 then none else some a.normalize

/-- glam `clamp_length_max`:
`if length_sq > max * max { max * (self / length_sq.sqrt()) } else { self }`. -/
noncomputable def clampLengthMax (a : Vec2) (m : ℝ) : Vec2 :=
  if a.lengthSq > m * m then (a.div (Real.sqrt a.lengthSq)).mul m else a

end Vec2

namespace Vec3

theorem ext_iff3 {a b : Vec3} : a = b ↔ a.x = b.x ∧ a.y = b.y ∧ a.z = b.z := by
  cases a
  cases b
  simp [mk.injEq]

/-- `Vec3::ZERO`. -/
def zero : Vec3 := ⟨0, 0, 0⟩

/-- `Vec3::from((v, 0.))`. -/
def from2 (v : Vec2) : Vec3 := ⟨v.x, v.y, 0⟩

/-- Component-wise `AddAssign`. -/
def add (a b : Vec3) : Vec3 := ⟨a.x + b.x, a.y + b.y, a.z + b.z⟩

/-- Component-wise `Sub`. -/
def sub (a b : Vec3) : Vec3 := ⟨a.x - b.x, a.y - b.y, a.z - b.z⟩

/-- `Mul<f32>`. -/
def mul (a : Vec3) (c : ℝ) : Vec3 := ⟨a.x * c, a.y * c, a.z * c⟩

/-- `Div<f32>`. -/
def div (a : Vec3) (c : ℝ) : Vec3 := ⟨a.x / c, a.y / c, a.z / c⟩

/-- glam `length_squared`. -/
def lengthSq (a : Vec3) : ℝ := a.x * a.x + a.y * a.y + a.z * a.z

/-- glam `length`. -/
noncomputable def length (a : Vec3) : ℝ := Real.sqrt a.lengthSq

/-- glam `normalize`, at call sites guarded by `steer.length() > 0`. -/
noncomputable def normalize (a : Vec3) : Vec3 := a.div a.length

/-- glam `clamp_length_max` on `Vec3`. -/
noncomputable def clampLengthMax (a : Vec3) (m : ℝ) : Vec3 :=
  if a.lengthSq > m * m then (a.div (Real.sqrt a.lengthSq)).mul m else a

end Vec3

/-- `Boid::seek` (`src/boids.rs` lines 77-84):
`target.sub(position).normalize().mul(max_speed).sub(velocity).clamp_length_max(max_force)`.
The `.normalize()` call is unguarded, so a target coincident with the
position yields NaN (`none`).  The velocity is `Option`-valued so that the
world-level model can propagate NaN velocities through this call. -/
noncomputable def seek (b : Boid) (target : Vec2) (position : Vec2)
    (velocity : Option Vec2) : Option Vec2 :=
  (Vec2.normalizeOpt (target.sub position)).bind fun u =>
    velocity.map fun v =>
      ((u.mul b.max_speed).sub v).clampLengthMax b.max_force

/-- Loop body of `Boid::separate` (lines 95-107): skip handles whose
`Position` cannot be fetched; for a fetched position at distance
`0 < dist < DESIRED_SEPARATION`, accumulate
`Vec3::from((position.sub(pos).normalize().div(dist), 0.))` and bump the
count. -/
noncomputable def sepStep (p : Vec2) (positions : ℕ → Option Vec2)
    (s : Vec3 × ℕ) (e : ℕ) : Vec3 × ℕ :=
  match positions e with
  | some q =>
    let dist := p.distance q
    if 0 < dist ∧ dist < DESIRED_SEPARATION then
      (s.1.add (Vec3.from2 (((p.sub q).normalize).div dist)), s.2 + 1)
    else s
  | none => s

/-- The `steer` value of `Boid::separate` after the loop and the averaging
(lines 93-110): the loop's accumulator, divided by the neighbor count when
that count is positive. -/
noncomputable def sepSteer (p : Vec2) (boids : List ℕ)
    (positions : ℕ → Option Vec2) : Vec3 :=
  let acc := boids.foldl (sepStep p positions) (Vec3.zero, 0)
  if acc.2 > 0 then acc.1.div (acc.2 : ℝ) else acc.1

/-- `Boid::separate` (lines 86-119).  When the averaged steer has positive
length, rescale it to `max_speed`, subtract the velocity and clamp to
`max_force`; otherwise return it as is. -/
noncomputable def separate (b : Boid) (p : Vec2) (vel : Option Vec2)
    (boids : List ℕ) (positions : ℕ → Option Vec2) : Option Vec3 :=
  let steer := sepSteer p boids positions
  if steer.length > 0 then
    vel.map fun v =>
      (((steer.normalize).mul b.max_speed).sub (Vec3.from2 v)).clampLengthMax b.max_force
  else some steer

/-- Loop body of `Boid::align` (lines 131-145): skip handles whose
`Position` or `Velocity` cannot be fetched; within
`0 < dist < NEIGHBOUR_RADIUS`, accumulate the neighbor velocity. -/
noncomputable def alignStep (p : Vec2) (positions velocities : ℕ → Option Vec2)
    (s : Vec2 × ℕ) (e : ℕ) : Vec2 × ℕ :=
  match positions e, velocities e with
  | some q, some w =>
    let dist := p.distance q
    if 0 < dist ∧ dist < NEIGHBOUR_RADIUS then (s.1.add w, s.2 + 1) else s
  | _, _ => s

/-- `Boid::align` (lines 121-155).  With a positive count:
`sum.div(count).normalize().mul(max_speed).sub(velocity).clamp_length_max(max_force)`;
the `.normalize()` is unguarded, so a zero average velocity yields NaN
(`none`).  Zero count: `Vec2::new(0., 0.)`. -/
noncomputable def align (b : Boid) (p : Vec2) (vel : Option Vec2)
    (boids : List ℕ) (positions velocities : ℕ → Option Vec2) : Option Vec2 :=
  let acc := boids.foldl (alignStep p positions velocities) (Vec2.zero, 0)
  if acc.2 > 0 then
    (Vec2.normalizeOpt (acc.1.div (acc.2 : ℝ))).bind fun u =>
      vel.map fun v => ((u.mul b.max_speed).sub v).clampLengthMax b.max_force
  else some (Vec2.mk 0 0)

/-- Loop body of `Boid::cohesion` (lines 166-174): skip handles whose
`Position` cannot be fetched; within `0 < dist < NEIGHBOUR_RADIUS`,
accumulate the neighbor position. -/
noncomputable def cohStep (p : Vec2) (positions : ℕ → Option Vec2)
    (s : Vec2 × ℕ) (e : ℕ) : Vec2 × ℕ :=
  match positions e with
  | some q =>
    let dist := p.distance q
    if 0 < dist ∧ dist < NEIGHBOUR_RADIUS then (s.1.add q, s.2 + 1) else s
  | none => s

/-- `Boid::cohesion` (lines 157-180).  With a positive count, seek the
centroid `sum.div(count)`; zero count: `Vec2::new(0., 0.)`. -/
noncomputable def cohesion (b : Boid) (p : Vec2) (vel : Option Vec2)
    (boids : List ℕ) (positions : ℕ → Option Vec2) : Option Vec2 :=
  let acc := boids.foldl (cohStep p positions) (Vec2.zero, 0)
  if acc.2 > 0 then seek b (acc.1.div (acc.2 : ℝ)) p vel
  else some (Vec2.mk 0 0)

/-- One agent of the world model: the `Position`, `Velocity` and
`Acceleration` components (NaN-contaminated vectors are `none`) plus the
`Boid` parameter component. -/
structure AgentState where
  pos : Option Vec2
  vel : Option Vec2
  acc : Option Vec2
  boid : Boid

/-- A 32-byte seed (`[u8; 32]`). -/
def Seed : Type := Fin 32 → Fin 256

/-- Model of the `RandomGenerator` resource.  `StdRng` (an external crate)
is a deterministic generator, modelled as a stream of already-generated
values together with a cursor; `random_f32` reads the next value. -/
structure RandomGenerator where
  stream : ℕ → ℝ
  idx : ℕ

/-- `RandomGenerator::random_f32`: draw the next value and advance. -/
def RandomGenerator.random_f32 (g : RandomGenerator) : ℝ × RandomGenerator :=
  (g.stream g.idx, ⟨g.stream, g.idx + 1⟩)

/-- The mutable resources of the simulation: the ECS agent set (entity
handle = list index), the `Boids` resource (the list of spawned handles),
the `BoidCount` and `MaxBoidCount` resources, and the RNG. -/
structure World where
  agents : List AgentState
  boids : List ℕ
  count : ℕ
  cap : ℕ
  rng : RandomGenerator

/-- The `Query<&Position>` lookup over the world's agents. -/
def positionsOf (agents : List AgentState) : ℕ → Option Vec2 :=
  fun e => (agents[e]?).bind fun a => a.pos

/-- The `Query<&Velocity>` lookup over the world's agents. -/
def velocitiesOf (agents : List AgentState) : ℕ → Option Vec2 :=
  fun e => (agents[e]?).bind fun a => a.vel

/-- The `spawn` system (lines 285-311): if `boid_count < max_boid_count`,
draw one random heading angle, create one agent at the origin with velocity
of magnitude `MAX_SPEED / 2` along that heading and zero acceleration,
append its handle to the `Boids` resource and bump the count; otherwise do
nothing (the RNG is not advanced either). -/
def spawnW (w : World) : World :=
  if w.count < w.cap then
    let r := w.rng.random_f32
    let newAgent : AgentState :=
      { pos := some Vec2.zero
        vel := some ((Vec2.mk (Real.cos r.1) (Real.sin r.1)).mul (MAX_SPEED / 2))
        acc := some Vec2.zero
        boid := Boid.default }
    { w with
        agents := w.agents ++ [newAgent]
        boids := w.boids ++ [w.agents.length]
        count := w.count + 1
        rng := r.2 }
  else w

/-- The per-agent body of the `flock` system (lines 319-330): compute the
three weighted steering outputs from the *pre-pass* position/velocity maps
and add them to this agent's acceleration.  A `none` (NaN) input or
steering output contaminates the accumulated acceleration; an agent whose
own position is NaN gets zero from all three behaviors (every distance
comparison is false), leaving its acceleration unchanged. -/
def flockAcc (positions velocities : ℕ → Option Vec2) (boids : List ℕ)
    (a : AgentState) : Option Vec2 :=
  match a.pos with
  | none => a.acc
  | some p =>
    match a.acc, separate a.boid p a.vel boids positions,
        align a.boid p a.vel boids positions velocities,
        cohesion a.boid p a.vel boids positions with
    | some acc, some s, some al, some co =>
      let sep := s.mul SEPARATION_MULTIPLIER
      some (((acc.add (Vec2.mk sep.x sep.y)).add
        (al.mul ALIGN_MULTIPLIER)).add (co.mul COHESION_MULTIPLIER))
    | _, _, _, _ => none

/-- The `flock` system (lines 313-331): every agent's acceleration is
updated from the frame-start snapshot of all positions and velocities;
nothing else changes. -/
def worldFlock (w : World) : World :=
  { w with
      agents := w.agents.map fun a =>
        { a with
            acc := flockAcc (positionsOf w.agents) (velocitiesOf w.agents)
              w.boids a } }

/-- The boundary wrap for one coordinate (lines 364-376): strictly below
`-h - R` jumps to `h + R`; strictly above `h + R` jumps to `-h - R`. -/
def wrapCoord (h x : ℝ) : ℝ :=
  if x < -h - R then h + R
  else if x > h + R then -h - R
  else x

/-- The boundary wrap applied to both coordinates. -/
def wrap (halfWidth halfHeight : ℝ) (p : Vec2) : Vec2 :=
  Vec2.mk (wrapCoord halfWidth p.x) (wrapCoord halfHeight p.y)

/-- The per-agent body of the `update_boid` system (lines 352-380):
`vel += acc`, clamp the speed to `max_speed`, `pos += vel * dt`, wrap
across the boundary with margin `R`, reset the acceleration via
`acc *= 0`.  NaN propagates field-wise through each step. -/
def updateAgent (dt halfWidth halfHeight : ℝ) (a : AgentState) : AgentState :=
  let vel1 : Option Vec2 :=
    match a.vel, a.acc with
    | some v, some acc => some ((v.add acc).clampLengthMax a.boid.max_speed)
    | _, _ => none
  let pos1 : Option Vec2 :=
    match a.pos, vel1 with
    | some p, some v => some (wrap halfWidth halfHeight (p.add (v.mul dt)))
    | _, _ => none
  let acc1 : Option Vec2 := a.acc.map fun acc => acc.mul 0
  { a with pos := pos1, vel := vel1, acc := acc1 }

/-- The `update_boid` system (lines 333-381) over the whole world. -/
def worldUpdate (dt halfWidth halfHeight : ℝ) (w : World) : World :=
  { w with agents := w.agents.map (updateAgent dt halfWidth halfHeight) }

/-- One frame of the `Update` schedule: `spawn`, then `flock`, then
`update_boid`.  (Bevy leaves `spawn` unordered against the chained pair,
but a handle spawned this frame has no fetchable components yet and is
skipped by every query, so the relative order does not affect the
trajectories; the model fixes the spawn-first order.) -/
def frame (halfWidth halfHeight dt : ℝ) (w : World) : World :=
  worldUpdate dt halfWidth halfHeight (worldFlock (spawnW w))

/-- The `setup` startup state (lines 266-283) plus the plugin's resources:
no agents, zero count, the configured cap, and an RNG seeded from the
32-byte seed.  `prf` is the (fixed, deterministic) StdRng stream function
of the seed. -/
def initWorld (prf : Seed → ℕ → ℝ) (seed : Seed) (cap : ℕ) : World :=
  { agents := [], boids := [], count := 0, cap := cap
    rng := ⟨prf seed, 0⟩ }

/-- Run the simulation over a list of per-frame `dt` values. -/
def run (prf : Seed → ℕ → ℝ) (seed : Seed) (cap : ℕ)
    (halfWidth halfHeight : ℝ) (dts : List ℝ) : World :=
  dts.foldl (fun w dt => frame halfWidth halfHeight dt w)
    (initWorld prf seed cap)

/-- The observable trajectory: every agent's position and velocity at every
frame boundary. -/
def trace (prf : Seed → ℕ → ℝ) (seed : Seed) (cap : ℕ)
    (halfWidth halfHeight : ℝ) (dts : List ℝ) :
    List (List (Option Vec2 × Option Vec2)) :=
  ((dts.scanl (fun w dt => frame halfWidth halfHeight dt w)
    (initWorld prf seed cap)).map fun w =>
      w.agents.map fun a => (a.pos, a.vel))

/-! ## Basic vector lemmas -/

theorem Vec2.lengthSq2_nonneg (a : Vec2) : 0 ≤ a.lengthSq :=
  add_nonneg (mul_self_nonneg _) (mul_self_nonneg _)

theorem Vec2.length2_nonneg (a : Vec2) : 0 ≤ a.length :=
  Real.sqrt_nonneg _

theorem Vec3.lengthSq3_nonneg (a : Vec3) : 0 ≤ a.lengthSq :=
  add_nonneg (add_nonneg (mul_self_nonneg _) (mul_self_nonneg _)) (mul_self_nonneg _)

theorem Vec3.length3_nonneg (a : Vec3) : 0 ≤ a.length :=
  Real.sqrt_nonneg _

/-- The clamped vector's length never exceeds a nonnegative bound. -/
theorem Vec2.clampLengthMax2_length_le (a : Vec2) (m : ℝ) (hm : 0 ≤ m) :
    (a.clampLengthMax m).length ≤ m := by
  by_cases h : a.lengthSq > m * m
  · unfold Vec2.clampLengthMax
    rw [if_pos h]
    have h0 : 0 < a.lengthSq := lt_of_le_of_lt (mul_self_nonneg m) h
    have hs : 0 < Real.sqrt a.lengthSq := Real.sqrt_pos.mpr h0
    have hss : Real.sqrt a.lengthSq * Real.sqrt a.lengthSq = a.lengthSq :=
      Real.mul_self_sqrt h0.le
    set s := Real.sqrt a.lengthSq with hsdef
    have hls : ((a.div s).mul m).lengthSq = m * m := by
      simp only [Vec2.div, Vec2.mul, Vec2.lengthSq] at *
      field_simp
      nlinarith [hss]
    rw [Vec2.length, hls, show m * m = m ^ 2 by ring, Real.sqrt_sq hm]
  · unfold Vec2.clampLengthMax
    rw [if_neg h]
    push_neg at h
    calc a.length = Real.sqrt a.lengthSq := rfl
      _ ≤ Real.sqrt (m * m) := Real.sqrt_le_sqrt h
      _ = m := by rw [show m * m = m ^ 2 by ring, Real.sqrt_sq hm]

/-- `Vec3` version of the clamp bound. -/
theorem Vec3.clampLengthMax3_length_le (a : Vec3) (m : ℝ) (hm : 0 ≤ m) :
    (a.clampLengthMax m).length ≤ m := by
  by_cases h : a.lengthSq > m * m
  · unfold Vec3.clampLengthMax
    rw [if_pos h]
    have h0 : 0 < a.lengthSq := lt_of_le_of_lt (mul_self_nonneg m) h
    have hs : 0 < Real.sqrt a.lengthSq := Real.sqrt_pos.mpr h0
    have hss : Real.sqrt a.lengthSq * Real.sqrt a.lengthSq = a.lengthSq :=
      Real.mul_self_sqrt h0.le
    set s := Real.sqrt a.lengthSq with hsdef
    have hls : ((a.div s).mul m).lengthSq = m * m := by
      simp only [Vec3.div, Vec3.mul, Vec3.lengthSq] at *
      field_simp
      nlinarith [hss]
    rw [Vec3.length, hls, show m * m = m ^ 2 by ring, Real.sqrt_sq hm]
  · unfold Vec3.clampLengthMax
    rw [if_neg h]
    push_neg at h
    calc a.length = Real.sqrt a.lengthSq := rfl
      _ ≤ Real.sqrt (m * m) := Real.sqrt_le_sqrt h
      _ = m := by rw [show m * m = m ^ 2 by ring, Real.sqrt_sq hm]

/-! ## Claim C1 -/

/-- Claim C1 (code bug): `Boid::seek` does *not* special-case a target
coincident with the current position; `target.sub(position)` is the zero
vector and the unguarded `.normalize()` produces NaN (modelled `none`),
which then propagates through the whole steering expression instead of the
zero vector the specification requires. -/
theorem seek_coincident_target_nan :
    seek Boid.default (Vec2.mk 0 0) (Vec2.mk 0 0) (some (Vec2.mk 0 0)) = none := by
  simp [seek, Vec2.normalizeOpt, Vec2.sub, Vec2.lengthSq]

/-! ## Claim C5 -/

/-- Claim C5: after the integration step (`vel += acc` followed by
`clamp_length_max(max_speed)`), the agent's velocity magnitude is at most
`max_speed` (for the program's nonnegative `max_speed`). -/
theorem speed_bound (dt halfWidth halfHeight : ℝ) (a : AgentState)
    (hm : 0 ≤ a.boid.max_speed) (v : Vec2)
    (hv : (updateAgent dt halfWidth halfHeight a).vel = some v) :
    v.length ≤ a.boid.max_speed := by
  obtain ⟨p0, v0, a0, b0⟩ := a
  cases v0 with
  | none => simp [updateAgent] at hv
  | some v1 =>
    cases a0 with
    | none => simp [updateAgent] at hv
    | some acc1 =>
      simp only [updateAgent] at hv
      rw [Option.some_inj] at hv
      rw [← hv]
      exact Vec2.clampLengthMax2_length_le _ _ hm

/-- A concrete agent used by several witnesses: at the origin with zero
velocity and acceleration, default parameters. -/
def restingAgent : AgentState :=
  { pos := some Vec2.zero, vel := some Vec2.zero, acc := some Vec2.zero
    boid := Boid.default }

theorem speed_bound_witness :
    Vec2.length Vec2.zero ≤ Boid.default.max_speed := by
  refine speed_bound 1 100 100 restingAgent ?_ Vec2.zero ?_
  · norm_num [restingAgent, Boid.default, MAX_SPEED]
  · norm_num [restingAgent, updateAgent, Vec2.add, Vec2.clampLengthMax,
      Vec2.lengthSq, Vec2.zero, Boid.default, MAX_SPEED]

/-! ## Claim C2 -/

/-- Claim C2 counterexample: with half-width 100, half-height 50 and margin
`R = 5`, an agent resting exactly at `x = W + R = 105` with zero velocity
and acceleration is *not* mapped to `x = -W - R = -105`: the wrap guards
are strict, so the position stays at `105`. -/
theorem wrap_at_margin_counterexample :
    (updateAgent 1 100 50
      { pos := some (Vec2.mk 105 0), vel := some Vec2.zero
        acc := some Vec2.zero, boid := Boid.default }).pos ≠
      some (Vec2.mk (-105) 0) := by
  norm_num [updateAgent, wrap, wrapCoord, R, Vec2.add, Vec2.mul,
    Vec2.clampLengthMax, Vec2.lengthSq, Vec2.zero, Boid.default, MAX_SPEED,
    Vec2.ext_iff2]

/-- Claim C2 (amended): for nonnegative half-extents, a resting agent's
position goes through the wrap rule unchanged in speed and then: a
coordinate strictly beyond `half + R` jumps to the opposite edge
`-(half + R)` (and symmetrically), while every position in the *closed* box
`[-W-R, W+R] × [-H-R, H+R]` — including positions exactly on the margin —
is left unchanged. -/
theorem wrap_rule (halfW halfH dt : ℝ) (b : Boid) (p : Vec2)
    (hW : 0 ≤ halfW) (hH : 0 ≤ halfH) :
    (updateAgent dt halfW halfH
        { pos := some p, vel := some Vec2.zero, acc := some Vec2.zero
          boid := b }).pos = some (wrap halfW halfH p)
  ∧ (halfW + R < p.x → (wrap halfW halfH p).x = -halfW - R)
  ∧ (p.x < -halfW - R → (wrap halfW halfH p).x = halfW + R)
  ∧ (halfH + R < p.y → (wrap halfW halfH p).y = -halfH - R)
  ∧ (p.y < -halfH - R → (wrap halfW halfH p).y = halfH + R)
  ∧ (-halfW - R ≤ p.x ∧ p.x ≤ halfW + R ∧ -halfH - R ≤ p.y ∧ p.y ≤ halfH + R →
      wrap halfW halfH p = p) := by
  obtain ⟨px, py⟩ := p
  refine ⟨?_, ?_, ?_, ?_, ?_, ?_⟩
  · have hcl : (Vec2.zero.add Vec2.zero).clampLengthMax b.max_speed = Vec2.zero := by
      have hz : Vec2.zero.add Vec2.zero = Vec2.zero := by
        simp [Vec2.add, Vec2.zero]
      rw [hz]
      unfold Vec2.clampLengthMax
      rw [if_neg]
      push_neg
      simp only [Vec2.lengthSq, Vec2.zero]
      nlinarith [mul_self_nonneg b.max_speed]
    simp only [updateAgent, hcl]
    norm_num [Vec2.add, Vec2.mul, Vec2.zero]
  · intro h
    simp only [wrap, wrapCoord, R] at *
    split_ifs <;> linarith
  · intro h
    simp only [wrap, wrapCoord, R] at *
    split_ifs <;> linarith
  · intro h
    simp only [wrap, wrapCoord, R] at *
    split_ifs <;> linarith
  · intro h
    simp only [wrap, wrapCoord, R] at *
    split_ifs <;> linarith
  · rintro ⟨h1, h2, h3, h4⟩
    simp only [wrap, wrapCoord, R, Vec2.ext_iff2] at *
    constructor
    · split_ifs <;> linarith
    · split_ifs <;> linarith

theorem wrap_rule_witness :
    (wrap 100 50 (Vec2.mk 106 3)).x = -105
  ∧ wrap 100 50 (Vec2.mk 105 55) = Vec2.mk 105 55 := by
  constructor
  · have h := (wrap_rule 100 50 1 Boid.default (Vec2.mk 106 3)
      (by norm_num) (by norm_num)).2.1 (by norm_num [R])
    rw [h]
    norm_num [R]
  · exact (wrap_rule 100 50 1 Boid.default (Vec2.mk 105 55)
      (by norm_num) (by norm_num)).2.2.2.2.2 (by norm_num [R])

/-! ## Fold helpers for the neighbor loops -/

/-- A fold whose step fixes every element of the list is the identity. -/
theorem foldl_skip {α σ : Type} (f : σ → α → σ) (l : List α) (s : σ)
    (h : ∀ e ∈ l, ∀ t, f t e = t) : l.foldl f s = s := by
  induction l generalizing s with
  | nil => rfl
  | cons a tl ih =>
    rw [List.foldl_cons, h a (by simp)]
    exact ih s fun e he t => h e (by simp [he]) t

/-- Removing one element that the step fixes does not change a fold. -/
theorem foldl_middle_skip {α σ : Type} (f : σ → α → σ) (l₁ l₂ : List α)
    (e : α) (s : σ) (h : ∀ t, f t e = t) :
    (l₁ ++ e :: l₂).foldl f s = (l₁ ++ l₂).foldl f s := by
  rw [List.foldl_append, List.foldl_append, List.foldl_cons, h]

/-! ## Claim C9 -/

/-- Claim C9: an agent none of whose fetchable neighbors lies strictly
within the relevant radius (`DESIRED_SEPARATION` for `separate`,
`NEIGHBOUR_RADIUS` for `align`/`cohesion`; distance zero covers the agent's
own handle) — in particular an agent alone in the population — gets the
zero vector from all three behaviors. -/
theorem zero_neighbors_zero_output (b : Boid) (p v : Vec2) (boids : List ℕ)
    (positions velocities : ℕ → Option Vec2)
    (hsep : ∀ e ∈ boids, ∀ q, positions e = some q →
      p.distance q = 0 ∨ DESIRED_SEPARATION ≤ p.distance q)
    (hnr : ∀ e ∈ boids, ∀ q, positions e = some q →
      p.distance q = 0 ∨ NEIGHBOUR_RADIUS ≤ p.distance q) :
    separate b p (some v) boids positions = some Vec3.zero
  ∧ align b p (some v) boids positions velocities = some (Vec2.mk 0 0)
  ∧ cohesion b p (some v) boids positions = some (Vec2.mk 0 0) := by
  have hs : ∀ e ∈ boids, ∀ t, sepStep p positions t e = t := by
    intro e he t
    cases hpe : positions e with
    | none => simp [sepStep, hpe]
    | some q =>
      have hng : ¬ (0 < p.distance q ∧ p.distance q < DESIRED_SEPARATION) := by
        rcases hsep e he q hpe with h | h
        · rintro ⟨h1, _⟩
          exact absurd h (ne_of_gt h1)
        · rintro ⟨_, h2⟩
          linarith
      simp only [sepStep, hpe]
      rw [if_neg hng]
  have ha : ∀ e ∈ boids, ∀ t, alignStep p positions velocities t e = t := by
    intro e he t
    cases hpe : positions e with
    | none => simp [alignStep, hpe]
    | some q =>
      cases hve : velocities e with
      | none => simp [alignStep, hpe, hve]
      | some w =>
        have hng : ¬ (0 < p.distance q ∧ p.distance q < NEIGHBOUR_RADIUS) := by
          rcases hnr e he q hpe with h | h
          · rintro ⟨h1, _⟩
            exact absurd h (ne_of_gt h1)
          · rintro ⟨_, h2⟩
            linarith
        simp only [alignStep, hpe, hve]
        rw [if_neg hng]
  have hc : ∀ e ∈ boids, ∀ t, cohStep p positions t e = t := by
    intro e he t
    cases hpe : positions e with
    | none => simp [cohStep, hpe]
    | some q =>
      have hng : ¬ (0 < p.distance q ∧ p.distance q < NEIGHBOUR_RADIUS) := by
        rcases hnr e he q hpe with h | h
        · rintro ⟨h1, _⟩
          exact absurd h (ne_of_gt h1)
        · rintro ⟨_, h2⟩
          linarith
      simp only [cohStep, hpe]
      rw [if_neg hng]
  refine ⟨?_, ?_, ?_⟩
  · simp only [separate, sepSteer, foldl_skip _ _ _ hs]
    norm_num [Vec3.length, Vec3.lengthSq, Vec3.zero]
  · simp only [align, foldl_skip _ _ _ ha]
    norm_num
  · simp only [cohesion, foldl_skip _ _ _ hc]
    norm_num

/-- The everywhere-unfetchable component map. -/
def noneMap : ℕ → Option Vec2 := fun _ => none

theorem zero_neighbors_zero_output_witness :
    separate Boid.default Vec2.zero (some Vec2.zero) [] noneMap = some Vec3.zero
  ∧ align Boid.default Vec2.zero (some Vec2.zero) [] noneMap noneMap = some (Vec2.mk 0 0)
  ∧ cohesion Boid.default Vec2.zero (some Vec2.zero) [] noneMap = some (Vec2.mk 0 0) :=
  zero_neighbors_zero_output Boid.default Vec2.zero Vec2.zero [] noneMap noneMap
    (by simp) (by simp)

/-! ## Claim C10 -/

/-- Claim C10: every neighbor scan silently skips a handle whose `Position`
(or, for `align`, whose `Position` or `Velocity`) cannot be fetched — the
handle contributes nothing to any steering output, and the scan is total
(no error). -/
theorem unfetchable_handles_skipped (b : Boid) (p v : Vec2) (l₁ l₂ : List ℕ)
    (e : ℕ) (positions velocities : ℕ → Option Vec2) :
    (positions e = none →
        separate b p (some v) (l₁ ++ e :: l₂) positions
          = separate b p (some v) (l₁ ++ l₂) positions
      ∧ cohesion b p (some v) (l₁ ++ e :: l₂) positions
          = cohesion b p (some v) (l₁ ++ l₂) positions
      ∧ align b p (some v) (l₁ ++ e :: l₂) positions velocities
          = align b p (some v) (l₁ ++ l₂) positions velocities)
  ∧ (velocities e = none →
      align b p (some v) (l₁ ++ e :: l₂) positions velocities
        = align b p (some v) (l₁ ++ l₂) positions velocities) := by
  constructor
  · intro hpe
    have hs : ∀ t, sepStep p positions t e = t := fun t => by simp [sepStep, hpe]
    have hc : ∀ t, cohStep p positions t e = t := fun t => by simp [cohStep, hpe]
    have ha : ∀ t, alignStep p positions velocities t e = t := fun t => by
      simp [alignStep, hpe]
    refine ⟨?_, ?_, ?_⟩
    · simp only [separate, sepSteer,
        foldl_middle_skip (sepStep p positions) l₁ l₂ e (Vec3.zero, 0) hs]
    · simp only [cohesion,
        foldl_middle_skip (cohStep p positions) l₁ l₂ e (Vec2.zero, 0) hc]
    · simp only [align,
        foldl_middle_skip (alignStep p positions velocities) l₁ l₂ e (Vec2.zero, 0) ha]
  · intro hve
    have hstep : ∀ t, alignStep p positions velocities t e = t := by
      intro t
      cases hpe : positions e with
      | none => simp [alignStep, hpe]
      | some q => simp [alignStep, hpe, hve]
    simp only [align,
      foldl_middle_skip (alignStep p positions velocities) l₁ l₂ e (Vec2.zero, 0) hstep]

theorem unfetchable_handles_skipped_witness :
    separate Boid.default Vec2.zero (some Vec2.zero) [0] noneMap
      = separate Boid.default Vec2.zero (some Vec2.zero) [] noneMap
  ∧ align Boid.default Vec2.zero (some Vec2.zero) [0] noneMap noneMap
      = align Boid.default Vec2.zero (some Vec2.zero) [] noneMap noneMap := by
  have h := unfetchable_handles_skipped Boid.default Vec2.zero Vec2.zero
    [] [] 0 noneMap noneMap
  exact ⟨(h.1 rfl).1, (h.1 rfl).2.2⟩

/-! ## Claim C4 -/

/-- Evaluate a square root at a perfect square. -/
theorem sqrt_val {a b : ℝ} (hb : 0 ≤ b) (h : a = b * b) : Real.sqrt a = b := by
  rw [h, show b * b = b ^ 2 by ring, Real.sqrt_sq hb]

/-- Whenever `seek` produces a well-defined vector, it is clamped to
`max_force`. -/
theorem seek_length_le (b : Boid) (hf : 0 ≤ b.max_force) (t p : Vec2)
    (vel : Option Vec2) (w : Vec2) (hw : seek b t p vel = some w) :
    w.length ≤ b.max_force := by
  unfold seek at hw
  cases hn : Vec2.normalizeOpt (t.sub p) with
  | none => rw [hn] at hw; simp at hw
  | some u =>
    rw [hn] at hw
    cases vel with
    | none => simp at hw
    | some v =>
      simp only [Option.some_bind', Option.map_some', Option.some_inj] at hw
      rw [← hw]
      exact Vec2.clampLengthMax2_length_le _ _ hf

/-- Claim C4 (amended): each of the three steering outputs, whenever it is
a well-defined vector (i.e. not the NaN value produced by normalizing a
zero vector), has magnitude at most `max_force`; `separate`'s output is
always well-defined and bounded for a well-defined velocity.  (The
unamended claim fails: `align` and `cohesion` can return NaN, see the
counterexample.) -/
theorem steering_outputs_bounded (b : Boid) (hf : 0 ≤ b.max_force)
    (p v : Vec2) (boids : List ℕ) (positions velocities : ℕ → Option Vec2) :
    (∀ s, separate b p (some v) boids positions = some s →
      s.length ≤ b.max_force)
  ∧ (∀ w, align b p (some v) boids positions velocities = some w →
      w.length ≤ b.max_force)
  ∧ (∀ w, cohesion b p (some v) boids positions = some w →
      w.length ≤ b.max_force) := by
  refine ⟨?_, ?_, ?_⟩
  · intro s hs
    unfold separate at hs
    by_cases h : (sepSteer p boids positions).length > 0
    · rw [if_pos h] at hs
      simp only [Option.map_some', Option.some_inj] at hs
      rw [← hs]
      exact Vec3.clampLengthMax3_length_le _ _ hf
    · rw [if_neg h] at hs
      rw [Option.some_inj] at hs
      rw [← hs]
      push_neg at h
      exact le_trans h hf
  · intro w hw
    unfold align at hw
    by_cases h : (boids.foldl (alignStep p positions velocities) (Vec2.zero, 0)).2 > 0
    · rw [if_pos h] at hw
      cases hn : Vec2.normalizeOpt
          (((boids.foldl (alignStep p positions velocities) (Vec2.zero, 0)).1).div
            ((boids.foldl (alignStep p positions velocities) (Vec2.zero, 0)).2 : ℝ)) with
      | none => rw [hn] at hw; simp at hw
      | some u =>
        rw [hn] at hw
        simp only [Option.some_bind', Option.map_some', Option.some_inj] at hw
        rw [← hw]
        exact Vec2.clampLengthMax2_length_le _ _ hf
    · rw [if_neg h] at hw
      rw [Option.some_inj] at hw
      rw [← hw]
      have : (Vec2.mk 0 0).length = 0 := by
        norm_num [Vec2.length, Vec2.lengthSq]
      rw [this]
      exact hf
  · intro w hw
    unfold cohesion at hw
    by_cases h : (boids.foldl (cohStep p positions) (Vec2.zero, 0)).2 > 0
    · rw [if_pos h] at hw
      exact seek_length_le b hf _ _ _ w hw
    · rw [if_neg h] at hw
      rw [Option.some_inj] at hw
      rw [← hw]
      have : (Vec2.mk 0 0).length = 0 := by
        norm_num [Vec2.length, Vec2.lengthSq]
      rw [this]
      exact hf

theorem steering_outputs_bounded_witness :
    (0 : ℝ) ≤ Boid.default.max_force
  ∧ Vec3.length Vec3.zero ≤ Boid.default.max_force := by
  have h0 : (0 : ℝ) ≤ Boid.default.max_force := by
    norm_num [Boid.default, MAX_FORCE]
  refine ⟨h0, ?_⟩
  refine (steering_outputs_bounded Boid.default h0 Vec2.zero Vec2.zero []
    noneMap noneMap).1 Vec3.zero ?_
  norm_num [separate, sepSteer, List.foldl_nil, Vec3.length, Vec3.lengthSq,
    Vec3.zero]

/-- Neighbor positions for the C4 counterexample: two agents 30 units away
on either side. -/
def pmapC4 : ℕ → Option Vec2 := fun e =>
  match e with
  | 0 => some (Vec2.mk 30 0)
  | 1 => some (Vec2.mk (-30) 0)
  | _ => none

/-- Neighbor velocities for the C4 counterexample: equal and opposite, so
the averaged velocity is the zero vector. -/
def vmapC4 : ℕ → Option Vec2 := fun e =>
  match e with
  | 0 => some (Vec2.mk 0 10)
  | 1 => some (Vec2.mk 0 (-10))
  | _ => none

/-- Claim C4 counterexample: with two neighbors inside `NEIGHBOUR_RADIUS`
whose velocities cancel, `align` normalizes the zero average velocity and
returns NaN (`none`) — there is no output vector of magnitude at most
`max_force`. -/
theorem align_output_undefined_counterexample :
    ¬ ∃ w, align Boid.default (Vec2.mk 0 0) (some (Vec2.mk 0 0)) [0, 1]
      pmapC4 vmapC4 = some w ∧ w.length ≤ Boid.default.max_force := by
  have d0 : Vec2.distance (Vec2.mk 0 0) (Vec2.mk 30 0) = 30 := by
    unfold Vec2.distance Vec2.length Vec2.lengthSq Vec2.sub
    exact sqrt_val (by norm_num) (by norm_num)
  have d1 : Vec2.distance (Vec2.mk 0 0) (Vec2.mk (-30) 0) = 30 := by
    unfold Vec2.distance Vec2.length Vec2.lengthSq Vec2.sub
    exact sqrt_val (by norm_num) (by norm_num)
  have h0 : alignStep (Vec2.mk 0 0) pmapC4 vmapC4 (Vec2.zero, 0) 0
      = (Vec2.mk 0 10, 1) := by
    simp only [alignStep, pmapC4, vmapC4]
    rw [d0, if_pos (by norm_num [NEIGHBOUR_RADIUS])]
    norm_num [Vec2.add, Vec2.zero]
  have h1 : alignStep (Vec2.mk 0 0) pmapC4 vmapC4 (Vec2.mk 0 10, 1) 1
      = (Vec2.mk 0 0, 2) := by
    simp only [alignStep, pmapC4, vmapC4]
    rw [d1, if_pos (by norm_num [NEIGHBOUR_RADIUS])]
    norm_num [Vec2.add]
  have hfold : [0, 1].foldl (alignStep (Vec2.mk 0 0) pmapC4 vmapC4)
      (Vec2.zero, 0) = (Vec2.mk 0 0, 2) := by
    rw [List.foldl_cons, h0, List.foldl_cons, h1, List.foldl_nil]
  have halign : align Boid.default (Vec2.mk 0 0) (some (Vec2.mk 0 0)) [0, 1]
      pmapC4 vmapC4 = none := by
    simp only [align, hfold]
    norm_num [Vec2.normalizeOpt, Vec2.div, Vec2.lengthSq]
  rintro ⟨w, hw, _⟩
  rw [halign] at hw
  exact Option.noConfusion hw

/-! ## Claim C3 -/

/-- Modelled from claim C3's wording, literally: the per-neighbor term is
`(agent.position - o.position) / distance` (the difference vector divided
by the scalar distance); the rest of the pipeline is as claimed (average by
count, rescale to `max_speed` when non-zero, subtract velocity, clamp to
`max_force`). -/
noncomputable def sepStepSpecC3 (p : Vec2) (positions : ℕ → Option Vec2)
    (s : Vec3 × ℕ) (e : ℕ) : Vec3 × ℕ :=
  match positions e with
  | some q =>
    let dist := p.distance q
    if 0 < dist ∧ dist < DESIRED_SEPARATION then
      (s.1.add (Vec3.from2 ((p.sub q).div dist)), s.2 + 1)
    else s
  | none => s

/-- Claim C3's described pipeline built on the literal per-neighbor term. -/
noncomputable def separateSpecC3 (b : Boid) (p : Vec2) (vel : Option Vec2)
    (boids : List ℕ) (positions : ℕ → Option Vec2) : Option Vec3 :=
  let acc := boids.foldl (sepStepSpecC3 p positions) (Vec3.zero, 0)
  let steer := if acc.2 > 0 then acc.1.div (acc.2 : ℝ) else acc.1
  if steer.length > 0 then
    vel.map fun v =>
      (((steer.normalize).mul b.max_speed).sub (Vec3.from2 v)).clampLengthMax b.max_force
  else some steer

/-- The amended per-neighbor term: the *unit* repulsion vector further
divided by the distance, i.e. `(p - o) / distance²`. -/
noncomputable def sepStepSpecAmended (p : Vec2) (positions : ℕ → Option Vec2)
    (s : Vec3 × ℕ) (e : ℕ) : Vec3 × ℕ :=
  match positions e with
  | some q =>
    let dist := p.distance q
    if 0 < dist ∧ dist < DESIRED_SEPARATION then
      (s.1.add (Vec3.from2 ((p.sub q).div (dist * dist))), s.2 + 1)
    else s
  | none => s

/-- Claim C3's described pipeline built on the amended per-neighbor term. -/
noncomputable def separateSpecAmended (b : Boid) (p : Vec2) (vel : Option Vec2)
    (boids : List ℕ) (positions : ℕ → Option Vec2) : Option Vec3 :=
  let acc := boids.foldl (sepStepSpecAmended p positions) (Vec3.zero, 0)
  let steer := if acc.2 > 0 then acc.1.div (acc.2 : ℝ) else acc.1
  if steer.length > 0 then
    vel.map fun v =>
      (((steer.normalize).mul b.max_speed).sub (Vec3.from2 v)).clampLengthMax b.max_force
  else some steer

/-- Claim C3 (amended): `Boid::separate` accumulates, per neighbor at
distance `0 < d < DESIRED_SEPARATION`, the term `(p - o) / d²` — the unit
repulsion direction weighted by `1 / d` — then averages by the count,
rescales a non-zero average to `max_speed`, subtracts the velocity and
clamps to `max_force` (zero neighbors give the zero vector). -/
theorem separate_eq_spec_amended (b : Boid) (p : Vec2) (vel : Option Vec2)
    (boids : List ℕ) (positions : ℕ → Option Vec2) :
    separate b p vel boids positions
      = separateSpecAmended b p vel boids positions := by
  have hstep : sepStep p positions = sepStepSpecAmended p positions := by
    funext s e
    unfold sepStep sepStepSpecAmended
    cases hpe : positions e with
    | none => rfl
    | some q =>
      have hx : ((p.sub q).normalize).div (p.distance q)
          = (p.sub q).div (p.distance q * p.distance q) := by
        have h1 : (p.sub q).normalize = (p.sub q).div (p.distance q) := rfl
        rw [h1]
        simp [Vec2.div, div_div]
      simp only [hx]
  simp only [separate, sepSteer, separateSpecAmended, hstep]

/-- Neighbor positions for the C3 counterexample: one neighbor 3 units
east, one 4 units north. -/
def pmapC3 : ℕ → Option Vec2 := fun e =>
  match e with
  | 0 => some (Vec2.mk 3 0)
  | 1 => some (Vec2.mk 0 4)
  | _ => none

/-- Claim C3 counterexample: with two neighbors at distances 3 and 4 the
code's output is `(-4, -3, 0)` (direction of the `1/d²`-weighted sum),
while the claim's literal `(p - o)/d` term produces a vector with equal
`x` and `y` components — the two disagree. -/
theorem separate_term_counterexample :
    separate Boid.default (Vec2.mk 0 0) (some (Vec2.mk 0 0)) [0, 1] pmapC3
      ≠ separateSpecC3 Boid.default (Vec2.mk 0 0) (some (Vec2.mk 0 0)) [0, 1]
          pmapC3 := by
  have hsub0 : (Vec2.mk 0 0).sub (Vec2.mk 3 0) = Vec2.mk (-3) 0 := by
    norm_num [Vec2.sub, Vec2.ext_iff2]
  have hsub1 : (Vec2.mk 0 0).sub (Vec2.mk 0 4) = Vec2.mk 0 (-4) := by
    norm_num [Vec2.sub, Vec2.ext_iff2]
  have hlen0 : (Vec2.mk (-3 : ℝ) 0).length = 3 := by
    unfold Vec2.length Vec2.lengthSq
    exact sqrt_val (by norm_num) (by norm_num)
  have hlen1 : (Vec2.mk (0 : ℝ) (-4)).length = 4 := by
    unfold Vec2.length Vec2.lengthSq
    exact sqrt_val (by norm_num) (by norm_num)
  have hd0 : (Vec2.mk 0 0).distance (Vec2.mk 3 0) = 3 := by
    unfold Vec2.distance
    rw [hsub0, hlen0]
  have hd1 : (Vec2.mk 0 0).distance (Vec2.mk 0 4) = 4 := by
    unfold Vec2.distance
    rw [hsub1, hlen1]
  have hn0 : ((Vec2.mk 0 0).sub (Vec2.mk 3 0)).normalize = Vec2.mk (-1) 0 := by
    unfold Vec2.normalize
    rw [hsub0, hlen0]
    norm_num [Vec2.div, Vec2.ext_iff2]
  have hn1 : ((Vec2.mk 0 0).sub (Vec2.mk 0 4)).normalize = Vec2.mk 0 (-1) := by
    unfold Vec2.normalize
    rw [hsub1, hlen1]
    norm_num [Vec2.div, Vec2.ext_iff2]
  -- the code side
  have hstep0 : sepStep (Vec2.mk 0 0) pmapC3 (Vec3.zero, 0) 0
      = (Vec3.mk (-1/3 : ℝ) 0 0, 1) := by
    simp only [sepStep, pmapC3]
    rw [hd0, if_pos (by norm_num [DESIRED_SEPARATION]), hn0]
    norm_num [Vec2.div, Vec3.from2, Vec3.add, Vec3.zero, Prod.ext_iff,
      Vec3.ext_iff3]
  have hstep1 : sepStep (Vec2.mk 0 0) pmapC3 (Vec3.mk (-1/3 : ℝ) 0 0, 1) 1
      = (Vec3.mk (-1/3 : ℝ) (-1/4) 0, 2) := by
    simp only [sepStep, pmapC3]
    rw [hd1, if_pos (by norm_num [DESIRED_SEPARATION]), hn1]
    norm_num [Vec2.div, Vec3.from2, Vec3.add, Prod.ext_iff, Vec3.ext_iff3]
  have hfold : [0, 1].foldl (sepStep (Vec2.mk 0 0) pmapC3) (Vec3.zero, 0)
      = (Vec3.mk (-1/3 : ℝ) (-1/4) 0, 2) := by
    rw [List.foldl_cons, hstep0, List.foldl_cons, hstep1, List.foldl_nil]
  have hsteer : sepSteer (Vec2.mk 0 0) [0, 1] pmapC3
      = Vec3.mk (-1/6 : ℝ) (-1/8) 0 := by
    simp only [sepSteer, hfold]
    norm_num [Vec3.div, Vec3.ext_iff3]
  have hsteerlen : (Vec3.mk (-1/6 : ℝ) (-1/8) 0).length = 5/24 := by
    unfold Vec3.length Vec3.lengthSq
    exact sqrt_val (by norm_num) (by norm_num)
  have hsteernorm : (Vec3.mk (-1/6 : ℝ) (-1/8) 0).normalize
      = Vec3.mk (-4/5 : ℝ) (-3/5) 0 := by
    unfold Vec3.normalize
    rw [hsteerlen]
    norm_num [Vec3.div, Vec3.ext_iff3]
  have hclampin :
      (((Vec3.mk (-4/5 : ℝ) (-3/5) 0).mul Boid.default.max_speed).sub
        (Vec3.from2 (Vec2.mk 0 0))) = Vec3.mk (-240 : ℝ) (-180) 0 := by
    norm_num [Vec3.mul, Vec3.sub, Vec3.from2, Boid.default, MAX_SPEED,
      Vec3.ext_iff3]
  have hsq90000 : Real.sqrt ((Vec3.mk (-240 : ℝ) (-180) 0).lengthSq) = 300 := by
    unfold Vec3.lengthSq
    exact sqrt_val (by norm_num) (by norm_num)
  have hclamp : (Vec3.mk (-240 : ℝ) (-180) 0).clampLengthMax
      Boid.default.max_force = Vec3.mk (-4 : ℝ) (-3) 0 := by
    unfold Vec3.clampLengthMax
    rw [if_pos (by norm_num [Vec3.lengthSq, Boid.default, MAX_FORCE]),
      hsq90000]
    norm_num [Vec3.div, Vec3.mul, Boid.default, MAX_FORCE, Vec3.ext_iff3]
  have hlhs : separate Boid.default (Vec2.mk 0 0) (some (Vec2.mk 0 0)) [0, 1]
      pmapC3 = some (Vec3.mk (-4 : ℝ) (-3) 0) := by
    simp only [separate, hsteer]
    rw [if_pos (by rw [hsteerlen]; norm_num)]
    simp only [Option.map_some', hsteernorm, hclampin, hclamp]
  -- the claimed side
  have hstep0s : sepStepSpecC3 (Vec2.mk 0 0) pmapC3 (Vec3.zero, 0) 0
      = (Vec3.mk (-1 : ℝ) 0 0, 1) := by
    simp only [sepStepSpecC3, pmapC3]
    rw [hd0, if_pos (by norm_num [DESIRED_SEPARATION]), hsub0]
    norm_num [Vec2.div, Vec3.from2, Vec3.add, Vec3.zero, Prod.ext_iff,
      Vec3.ext_iff3]
  have hstep1s : sepStepSpecC3 (Vec2.mk 0 0) pmapC3 (Vec3.mk (-1 : ℝ) 0 0, 1) 1
      = (Vec3.mk (-1 : ℝ) (-1) 0, 2) := by
    simp only [sepStepSpecC3, pmapC3]
    rw [hd1, if_pos (by norm_num [DESIRED_SEPARATION]), hsub1]
    norm_num [Vec2.div, Vec3.from2, Vec3.add, Prod.ext_iff, Vec3.ext_iff3]
  have hfolds : [0, 1].foldl (sepStepSpecC3 (Vec2.mk 0 0) pmapC3)
      (Vec3.zero, 0) = (Vec3.mk (-1 : ℝ) (-1) 0, 2) := by
    rw [List.foldl_cons, hstep0s, List.foldl_cons, hstep1s, List.foldl_nil]
  set s2 := Real.sqrt (1/2 : ℝ) with hs2def
  have hs2pos : 0 < s2 := Real.sqrt_pos.mpr (by norm_num)
  have hs2sq : s2 * s2 = 1/2 := Real.mul_self_sqrt (by norm_num)
  have hsteers : (if ((2 : ℕ) > 0) then
        (Vec3.mk (-1 : ℝ) (-1) 0).div ((2 : ℕ) : ℝ)
      else Vec3.mk (-1 : ℝ) (-1) 0) = Vec3.mk (-1/2 : ℝ) (-1/2) 0 := by
    norm_num [Vec3.div, Vec3.ext_iff3]
  have hlens : (Vec3.mk (-1/2 : ℝ) (-1/2) 0).length = s2 := by
    unfold Vec3.length Vec3.lengthSq
    rw [hs2def]
    congr 1
    norm_num
  have hnorms : (Vec3.mk (-1/2 : ℝ) (-1/2) 0).normalize
      = Vec3.mk (-s2) (-s2) 0 := by
    unfold Vec3.normalize
    rw [hlens]
    simp only [Vec3.div, Vec3.ext_iff3]
    refine ⟨?_, ?_, by norm_num⟩
    · rw [div_eq_iff (ne_of_gt hs2pos)]
      nlinarith [hs2sq]
    · rw [div_eq_iff (ne_of_gt hs2pos)]
      nlinarith [hs2sq]
  have hclampins :
      (((Vec3.mk (-s2) (-s2) 0).mul Boid.default.max_speed).sub
        (Vec3.from2 (Vec2.mk 0 0))) = Vec3.mk (-(300*s2)) (-(300*s2)) 0 := by
    rw [Vec3.ext_iff3]
    simp only [Vec3.mul, Vec3.sub, Vec3.from2, Boid.default, MAX_SPEED]
    refine ⟨by ring, by ring, by ring⟩
  have hlsq : (Vec3.mk (-(300*s2)) (-(300*s2)) 0).lengthSq = 90000 := by
    show -(300*s2) * -(300*s2) + -(300*s2) * -(300*s2) + (0:ℝ) * 0 = 90000
    nlinarith [hs2sq]
  have hclamps : (Vec3.mk (-(300*s2)) (-(300*s2)) 0).clampLengthMax
      Boid.default.max_force = Vec3.mk (-(5*s2)) (-(5*s2)) 0 := by
    unfold Vec3.clampLengthMax
    rw [if_pos (by rw [hlsq]; norm_num [Boid.default, MAX_FORCE]), hlsq,
      sqrt_val (b := 300) (by norm_num) (by norm_num)]
    rw [Vec3.ext_iff3]
    simp only [Vec3.div, Vec3.mul, Boid.default, MAX_FORCE]
    refine ⟨by ring, by ring, by ring⟩
  have hrhs : separateSpecC3 Boid.default (Vec2.mk 0 0) (some (Vec2.mk 0 0))
      [0, 1] pmapC3 = some (Vec3.mk (-(5*s2)) (-(5*s2)) 0) := by
    simp only [separateSpecC3, hfolds, hsteers]
    rw [if_pos (by rw [hlens]; exact hs2pos)]
    simp only [Option.map_some', hnorms, hclampins, hclamps]
  rw [hlhs, hrhs]
  intro h
  rw [Option.some_inj, Vec3.ext_iff3] at h
  obtain ⟨hx, hy, -⟩ := h
  have hx2 : (-4 : ℝ) = -(5*s2) := hx
  have hy2 : (-3 : ℝ) = -(5*s2) := hy
  linarith

/-! ## Claim C6 -/

/-- The population bookkeeping invariant: the `Boids` handle list, the
ECS agent set and the `BoidCount` counter agree, and the counter respects
the cap. -/
def PopInv (w : World) : Prop :=
  w.boids.length = w.count ∧ w.agents.length = w.count ∧ w.count ≤ w.cap

theorem spawnW_popinv (w : World) (h : PopInv w) :
    PopInv (spawnW w) ∧ (spawnW w).cap = w.cap := by
  obtain ⟨h1, h2, h3⟩ := h
  by_cases hc : w.count < w.cap
  · unfold spawnW
    rw [if_pos hc]
    refine ⟨⟨?_, ?_, ?_⟩, rfl⟩
    · simp [h1]
    · simp [h2]
    · show w.count + 1 ≤ w.cap
      omega
  · unfold spawnW
    rw [if_neg hc]
    exact ⟨⟨h1, h2, h3⟩, rfl⟩

theorem frame_popinv (halfW halfH dt : ℝ) (w : World) (h : PopInv w) :
    PopInv (frame halfW halfH dt w) ∧ (frame halfW halfH dt w).cap = w.cap := by
  obtain ⟨⟨h1, h2, h3⟩, hcap⟩ := spawnW_popinv w h
  unfold frame
  exact ⟨⟨by simpa [worldUpdate, worldFlock] using h1,
    by simpa [worldUpdate, worldFlock] using h2,
    by simpa [worldUpdate, worldFlock] using h3⟩,
    by simpa [worldUpdate, worldFlock] using hcap⟩

theorem run_popinv (halfW halfH : ℝ) (dts : List ℝ) : ∀ w : World, PopInv w →
    PopInv (dts.foldl (fun w dt => frame halfW halfH dt w) w)
  ∧ (dts.foldl (fun w dt => frame halfW halfH dt w) w).cap = w.cap := by
  induction dts with
  | nil => exact fun w h => ⟨h, rfl⟩
  | cons d tl ih =>
    intro w h
    rw [List.foldl_cons]
    obtain ⟨h1, h2⟩ := frame_popinv halfW halfH d w h
    obtain ⟨g1, g2⟩ := ih _ h1
    exact ⟨g1, by rw [g2, h2]⟩

/-- Claim C6: along every run the population size never exceeds the cap
(and the handle list, entity set and counter stay in sync); one `spawn`
invocation appends exactly one agent when the population is below the cap
and is a no-op otherwise; each frame grows the population by zero or one. -/
theorem population_cap (prf : Seed → ℕ → ℝ) (seed : Seed) (cap : ℕ)
    (halfW halfH : ℝ) (dts : List ℝ) (dt : ℝ) (w : World) :
    ((run prf seed cap halfW halfH dts).boids.length ≤ cap
      ∧ (run prf seed cap halfW halfH dts).boids.length
          = (run prf seed cap halfW halfH dts).count
      ∧ (run prf seed cap halfW halfH dts).agents.length
          = (run prf seed cap halfW halfH dts).count)
  ∧ (w.boids.length = w.count → w.boids.length < w.cap →
      (spawnW w).boids.length = w.boids.length + 1)
  ∧ (w.boids.length = w.count → ¬ w.boids.length < w.cap → spawnW w = w)
  ∧ w.boids.length ≤ (frame halfW halfH dt w).boids.length
  ∧ (frame halfW halfH dt w).boids.length ≤ w.boids.length + 1 := by
  refine ⟨?_, ?_, ?_, ?_, ?_⟩
  · have hinit : PopInv (initWorld prf seed cap) :=
      ⟨rfl, rfl, Nat.zero_le _⟩
    obtain ⟨⟨g1, g2, g3⟩, gcap⟩ := run_popinv halfW halfH dts _ hinit
    exact ⟨by rw [run, g1]; exact le_trans g3 (le_of_eq gcap), by rw [run, g1],
      by rw [run, g2]⟩
  · intro heq hlt
    unfold spawnW
    rw [if_pos (by omega)]
    simp
  · intro heq hlt
    unfold spawnW
    rw [if_neg (by omega)]
  · unfold frame
    by_cases hc : w.count < w.cap
    · unfold spawnW worldUpdate worldFlock
      rw [if_pos hc]
      simp
    · unfold spawnW worldUpdate worldFlock
      rw [if_neg hc]
  · unfold frame
    by_cases hc : w.count < w.cap
    · unfold spawnW worldUpdate worldFlock
      rw [if_pos hc]
      simp
    · unfold spawnW worldUpdate worldFlock
      rw [if_neg hc]
      simp

/-- A trivial StdRng stream model, for witnesses. -/
def prf0 : Seed → ℕ → ℝ := fun _ _ => 0

/-- The all-zero 32-byte seed (`let seed = [0u8; 32];` in `setup`). -/
def seed0 : Seed := fun _ => 0

theorem population_cap_witness :
    (spawnW (initWorld prf0 seed0 2)).boids.length
      = (initWorld prf0 seed0 2).boids.length + 1 :=
  (population_cap prf0 seed0 2 100 100 [] 1 (initWorld prf0 seed0 2)).2.1
    (by simp [initWorld]) (by simp [initWorld])

/-! ## Claim C7 -/

/-- Claim C7: two runs with the same seed (hence the same StdRng stream),
the same per-frame `dt` sequence and the same viewport bounds produce
identical agent trajectories (per-agent positions and velocities at every
frame). -/
theorem run_deterministic (prf : Seed → ℕ → ℝ) (s1 s2 : Seed) (cap : ℕ)
    (w1 w2 h1 h2 : ℝ) (dts1 dts2 : List ℝ)
    (hs : s1 = s2) (hd : dts1 = dts2) (hw : w1 = w2) (hh : h1 = h2) :
    trace prf s1 cap w1 h1 dts1 = trace prf s2 cap w2 h2 dts2 := by
  rw [hs, hd, hw, hh]

theorem run_deterministic_witness :
    trace prf0 seed0 3 100 100 [1] = trace prf0 seed0 3 100 100 [1] :=
  run_deterministic prf0 seed0 seed0 3 100 100 100 100 [1] [1] rfl rfl rfl rfl

/-! ## Claim C8 -/

/-- Project the equality of the pos/vel/boid maps through an option. -/
theorem option_proj_eq {o1 o2 : Option AgentState}
    (h : o1.map (fun a => (a.pos, a.vel, a.boid))
       = o2.map (fun a => (a.pos, a.vel, a.boid))) :
    o1.bind (fun a => a.pos) = o2.bind (fun a => a.pos)
  ∧ o1.bind (fun a => a.vel) = o2.bind (fun a => a.vel) := by
  cases o1 with
  | none =>
    cases o2 with
    | none => exact ⟨rfl, rfl⟩
    | some a2 => simp at h
  | some a1 =>
    cases o2 with
    | none => simp at h
    | some a2 =>
      simp only [Option.map_some', Option.some_inj, Prod.mk.injEq] at h
      simp [h.1, h.2.1]

/-- Claim C8: the force-accumulation pass mutates only accelerations — for
every agent, `flock` leaves all positions and velocities unchanged; the
`spawn` pass only appends, never modifying an existing agent; and the
acceleration `flock` produces for an agent depends only on the agents'
positions, velocities and parameters, the handle list, and that agent's own
acceleration — never on another agent's acceleration. -/
theorem flock_only_acceleration (w : World) (i : ℕ) (w1 w2 : World)
    (hpv : w1.agents.map (fun a => (a.pos, a.vel, a.boid))
         = w2.agents.map (fun a => (a.pos, a.vel, a.boid)))
    (hboids : w1.boids = w2.boids)
    (hacc : (w1.agents[i]?).map (fun a => a.acc)
          = (w2.agents[i]?).map (fun a => a.acc)) :
    ((worldFlock w).agents[i]?).map (fun a => (a.pos, a.vel))
      = (w.agents[i]?).map (fun a => (a.pos, a.vel))
  ∧ (∀ j, j < w.agents.length → (spawnW w).agents[j]? = w.agents[j]?)
  ∧ ((worldFlock w1).agents[i]?).map (fun a => a.acc)
      = ((worldFlock w2).agents[i]?).map (fun a => a.acc) := by
  have hproj : ∀ e : ℕ, (w1.agents[e]?).map (fun a => (a.pos, a.vel, a.boid))
      = (w2.agents[e]?).map (fun a => (a.pos, a.vel, a.boid)) := by
    intro e
    rw [← List.getElem?_map, ← List.getElem?_map, hpv]
  have hP : positionsOf w1.agents = positionsOf w2.agents := by
    funext e
    exact (option_proj_eq (hproj e)).1
  have hV : velocitiesOf w1.agents = velocitiesOf w2.agents := by
    funext e
    exact (option_proj_eq (hproj e)).2
  refine ⟨?_, ?_, ?_⟩
  · simp only [worldFlock, List.getElem?_map, Option.map_map]
    cases w.agents[i]? with
    | none => rfl
    | some a => rfl
  · intro j hj
    by_cases hc : w.count < w.cap
    · unfold spawnW
      rw [if_pos hc]
      exact List.getElem?_append_left hj
    · unfold spawnW
      rw [if_neg hc]
  · simp only [worldFlock, List.getElem?_map, Option.map_map, hP, hV, hboids]
    have h := hproj i
    cases h1 : w1.agents[i]? with
    | none =>
      rw [h1] at h
      cases h2 : w2.agents[i]? with
      | none => rfl
      | some a2 => rw [h2] at h; simp at h
    | some a1 =>
      rw [h1] at h
      cases h2 : w2.agents[i]? with
      | none => rw [h2] at h; simp at h
      | some a2 =>
        rw [h2] at h
        simp only [Option.map_some', Option.some_inj, Prod.mk.injEq] at h
        have hacc2 : a1.acc = a2.acc := by
          rw [h1, h2] at hacc
          simpa using hacc
        have ha : a1 = a2 := by
          cases a1
          cases a2
          simp_all
        rw [ha]

/-- A one-agent world used by the C8 witness. -/
def world0 : World :=
  { agents := [restingAgent], boids := [0], count := 1, cap := 1
    rng := ⟨fun _ => 0, 0⟩ }

theorem flock_only_acceleration_witness :
    ((worldFlock world0).agents[0]?).map (fun a => (a.pos, a.vel))
      = (world0.agents[0]?).map (fun a => (a.pos, a.vel))
  ∧ ((worldFlock world0).agents[0]?).map (fun a => a.acc)
      = ((worldFlock world0).agents[0]?).map (fun a => a.acc) := by
  have h := flock_only_acceleration world0 0 world0 world0 rfl rfl rfl
  exact ⟨h.1, h.2.2⟩

end

end Boids
